import Mathlib

set_option maxHeartbeats 1000000

namespace EnergyTetris

/-! Shallow embedding of the game engine in `src/app.js` of 651juan/energy-tetris.
DOM access, canvas rendering and timing adapters are outside the engine and are
not modelled; every `Math.random()` draw is made an explicit parameter (`Rand`). -/

/-- Board width in cells (source constant GRID_WIDTH = 10). -/
def GRID_WIDTH : Nat := 10

/-- Board height in cells (source constant GRID_HEIGHT = 20). -/
def GRID_HEIGHT : Nat := 20

/-- Energy needed for the treasure unlock (source constant ENERGY_THRESHOLD = 5000). -/
def ENERGY_THRESHOLD : Nat := 5000

/-- A board cell in the source holds the number 0 (empty) or a nonempty color
string; modelled as Option String (none = 0, some c = color c).  JS truthiness
of a cell (`if (grid[y][x])`) is `Option.isSome` since color strings are nonempty. -/
abbrev Cell := Option String

abbrev BoardRow := List Cell

abbrev Grid := List BoardRow

/-- A shape matrix entry is the number 0 or 1, exactly as in the SHAPES literals. -/
abbrev Shape := List (List Nat)

/-- The seven tetromino keys, in the order of `Object.keys(SHAPES)`. -/
inductive ShapeKey where
  | I | O | T | S | Z | J | L
deriving DecidableEq

/-- Source constant SHAPES. -/
def SHAPES : ShapeKey → Shape
  | .I => [[1, 1, 1, 1]]
  | .O => [[1, 1], [1, 1]]
  | .T => [[0, 1, 0], [1, 1, 1]]
  | .S => [[0, 1, 1], [1, 1, 0]]
  | .Z => [[1, 1, 0], [0, 1, 1]]
  | .J => [[1, 0, 0], [1, 1, 1]]
  | .L => [[0, 0, 1], [1, 1, 1]]

/-- Source constant COLORS. -/
def COLORS : ShapeKey → String
  | .I => "#1FB8CD"
  | .O => "#FFC185"
  | .T => "#B4413C"
  | .S => "#5D878F"
  | .Z => "#DB4545"
  | .J => "#D2BA4C"
  | .L => "#964325"

/-- The `currentPiece` object: shape matrix, color tag and top-left position. -/
structure Piece where
  shape : Shape
  color : String
  x : Int
  y : Int
deriving DecidableEq

/-- The engine's mutable module-level state.  `treasureCode` models the text
written to the treasure-code DOM element (none before the first unlock). -/
structure GameState where
  grid : Grid
  currentPiece : Option Piece
  score : Nat
  level : Nat
  energy : Nat
  dropInterval : Int
  treasureUnlocked : Bool
  treasureCode : Option String
  gameStarted : Bool
deriving DecidableEq

/-- Explicit stand-in for the `Math.random()` draws an engine command can make:
the shape key chosen by `spawnPiece` and the per-character draws (each in
[0,36)) made by `generateTreasureCode`. -/
structure Rand where
  nextShape : ShapeKey
  codeRand : Nat → Fin 36

/-- One all-empty row, `Array(GRID_WIDTH).fill(0)`. -/
def emptyRow : BoardRow := List.replicate GRID_WIDTH none

/-- Source `resetGrid()`: GRID_HEIGHT rows of GRID_WIDTH zeroes. -/
def resetGrid : Grid := List.replicate GRID_HEIGHT emptyRow

/-- Entry `shape[row][col]` of a shape matrix (0 when out of range; catalog
shapes are rectangular so the default is never hit on real shapes). -/
def shapeCell (shape : Shape) (row col : Nat) : Nat :=
  (shape.getD row []).getD col 0

/-- Truthiness of `grid[y][x]` for in-board coordinates. -/
def gridCellFilled (g : Grid) (y x : Int) : Bool :=
  ((g.getD y.toNat []).getD x.toNat none).isSome

/-- Source `checkCollision(x, y, shape)`: some occupied cell of the shape placed
at (x,y) is out of range horizontally, at or past the bottom, or overlaps a
non-empty board cell on a row that is inside the board (negative rows are never
compared against board content). -/
def checkCollision (g : Grid) (x y : Int) (shape : Shape) : Bool :=
  (List.range shape.length).any (fun row =>
    (List.range ((shape.getD row []).length)).any (fun col =>
      shapeCell shape row col != 0 &&
        (decide (x + (col : Int) < 0) ||
         decide ((GRID_WIDTH : Int) ≤ x + (col : Int)) ||
         decide ((GRID_HEIGHT : Int) ≤ y + (row : Int)) ||
         (decide (0 ≤ y + (row : Int)) && gridCellFilled g (y + (row : Int)) (x + (col : Int))))))

/-- Source row-fullness test `grid[row].every(cell => cell !== 0)`. -/
def isFullRow (r : BoardRow) : Bool := r.all (fun c => c.isSome)

/-- Fullness of the row at a given index; false when the index is out of range
(never the case for the 20-row grids the source maintains). -/
def rowFullAt (g : Grid) (row : Nat) : Bool :=
  match g[row]? with
  | some r => isFullRow r
  | none => false

/-- One clearing step of `clearLines`: `grid.splice(row, 1)` followed by
`grid.unshift(Array(GRID_WIDTH).fill(0))`. -/
def removeRowInsertTop (g : Grid) (row : Nat) : Grid :=
  emptyRow :: g.eraseIdx row

/-- The row scan of `clearLines`: from the bottom row upward; on finding a full
row, remove it, insert a fresh empty row at the top, and re-examine the same
index (`row++` before the loop's `row--`).  The JS loop is unbounded; the fuel
argument only serves Lean's termination checker, and `clearLoopF_eq` below
proves the result is the same for every fuel above `countP isFullRow g + row`,
so the fuel chosen in `clearGrid` is never exhausted. -/
def clearLoopF : Nat → Grid → Nat → Grid × Nat
  | 0, g, _ => (g, 0)
  | fuel + 1, g, row =>
    if rowFullAt g row then
      let p := clearLoopF fuel (removeRowInsertTop g row) row
      (p.1, p.2 + 1)
    else if row = 0 then (g, 0)
    else clearLoopF fuel g (row - 1)

/-- The grid and cleared-line count produced by the scan of `clearLines`. -/
def clearGrid (g : Grid) : Grid × Nat :=
  clearLoopF (g.countP isFullRow + GRID_HEIGHT) g (GRID_HEIGHT - 1)

/-- The alphabet of `generateTreasureCode`, as the character list of the
source's `chars` string. -/
def treasureChars : List Char :=
  "ABCDEFGHIJKLMNOPQRSTUVWXYZ0123456789".toList

/-- Source `generateTreasureCode()`: eight characters, each
`chars.charAt(Math.floor(Math.random() * chars.length))`; the i-th random draw
is `f i`. -/
def generateTreasureCode (f : Nat → Fin 36) : String :=
  String.mk ((List.range 8).map (fun i => treasureChars.getD (f i).val 'A'))

/-- Source `unlockTreasure()`: set the flag and expose a fresh code. -/
def unlockTreasure (st : GameState) (e : Rand) : GameState :=
  { st with
    treasureUnlocked := true
    treasureCode := some (generateTreasureCode e.codeRand) }

/-- Source `clearLines()`: run the scan, then if any line cleared award
`[0,100,300,500,800][linesCleared] * level` to score and energy, recompute
level and dropInterval, and run the treasure check. -/
def clearLines (st : GameState) (e : Rand) : GameState :=
  let res := clearGrid st.grid
  let st1 := { st with grid := res.1 }
  if 0 < res.2 then
    let points := [0, 100, 300, 500, 800].getD res.2 0 * st1.level
    let score1 := st1.score + points
    let energy1 := st1.energy + points
    let level1 := score1 / 1000 + 1
    let st2 := { st1 with
      score := score1
      energy := energy1
      level := level1
      dropInterval := max 100 (1000 - ((level1 : Int) - 1) * 100) }
    if ENERGY_THRESHOLD ≤ st2.energy && !st2.treasureUnlocked then
      unlockTreasure st2 e
    else st2
  else st1

/-- Write one board cell, `grid[y][x] = c`. -/
def setCell (g : Grid) (y x : Nat) (c : Cell) : Grid :=
  g.set y ((g.getD y []).set x c)

/-- The grid-writing loop of `lockPiece`: every occupied shape cell whose
absolute row is ≥ 0 receives the piece's color. -/
def lockGrid (g : Grid) (p : Piece) : Grid :=
  (List.range p.shape.length).foldl (fun acc row =>
    (List.range ((p.shape.getD row []).length)).foldl (fun acc2 col =>
      if shapeCell p.shape row col != 0 && decide (0 ≤ p.y + (row : Int)) then
        setCell acc2 (p.y + (row : Int)).toNat (p.x + (col : Int)).toNat (some p.color)
      else acc2) acc) g

/-- Source `gameOver()` engine effect: stop the session (`gameStarted = false`).
Canvas drawing and button relabelling are rendering only. -/
def gameOver (st : GameState) : GameState :=
  { st with gameStarted := false }

/-- Spawn column `Math.floor(GRID_WIDTH / 2) - 1`. -/
def spawnX : Int := (GRID_WIDTH : Int) / 2 - 1

/-- Source `spawnPiece()`: install the randomly chosen piece at (spawnX, 0) and
transition to game over if it collides immediately.  The piece stays installed
either way. -/
def spawnPiece (st : GameState) (e : Rand) : GameState :=
  let p : Piece := { shape := SHAPES e.nextShape, color := COLORS e.nextShape,
                     x := spawnX, y := (0 : Int) }
  let st1 := { st with currentPiece := some p }
  if checkCollision st1.grid p.x p.y p.shape then gameOver st1 else st1

/-- Source `lockPiece()`: write the piece into the grid, clear lines, spawn the
next piece (`updateUI()` is rendering only). -/
def lockPiece (st : GameState) (e : Rand) : GameState :=
  match st.currentPiece with
  | none => st
  | some p =>
    let st1 := { st with grid := lockGrid st.grid p }
    let st2 := clearLines st1 e
    spawnPiece st2 e

/-- Source `movePiece(dx, dy)`: with no active piece, return undefined (falsy,
modelled false) and change nothing.  Otherwise commit the translation when the
candidate position is collision free, awarding 1 score and 1 energy when dy > 0;
on a blocked downward move lock the piece; on any blocked move return false. -/
def movePiece (dx dy : Int) (st : GameState) (e : Rand) : GameState × Bool :=
  match st.currentPiece with
  | none => (st, false)
  | some p =>
    let newX := p.x + dx
    let newY := p.y + dy
    if !(checkCollision st.grid newX newY p.shape) then
      let st1 := { st with currentPiece := some { p with x := newX, y := newY } }
      let st2 := if 0 < dy then
                   { st1 with score := st1.score + 1, energy := st1.energy + 1 }
                 else st1
      (st2, true)
    else if 0 < dy then
      (lockPiece st e, false)
    else
      (st, false)

/-- The rotation expression of `rotatePiece`:
`shape[0].map((_, i) => shape.map(row => row[i]).reverse())`. -/
def rotateShape (s : Shape) : Shape :=
  (List.range (s.headD []).length).map (fun i => (s.map (fun row => row.getD i 0)).reverse)

/-- Source `rotatePiece()`: replace the shape with its rotation when that does
not collide at the current position; otherwise do nothing. -/
def rotatePiece (st : GameState) : GameState :=
  match st.currentPiece with
  | none => st
  | some p =>
    let rotated := rotateShape p.shape
    if !(checkCollision st.grid p.x p.y rotated) then
      { st with currentPiece := some { p with shape := rotated } }
    else st

/-- The `while (movePiece(0, 1)) dropDistance++` loop of `hardDrop`, returning
the final state and the count of successful downward steps.  The JS loop is
unbounded; the fuel only serves Lean's termination checker and
`hardDropLoop_char` below shows it is never exhausted for the fuel chosen in
`hardDrop`. -/
def hardDropLoop : Nat → GameState → Rand → Nat → GameState × Nat
  | 0, st, _, d => (st, d)
  | fuel + 1, st, e, d =>
    let r := movePiece 0 1 st e
    if r.2 then hardDropLoop fuel r.1 e (d + 1) else (r.1, d)

/-- Fuel bound for `hardDropLoop`: strictly more than any possible number of
successful downward steps of a piece whose shape has an occupied cell. -/
def hardDropFuel (st : GameState) : Nat :=
  match st.currentPiece with
  | none => 0
  | some p => ((GRID_HEIGHT : Int) + p.shape.length - p.y).toNat + 1

/-- Source `hardDrop()`: no-op with no active piece; otherwise run the soft-drop
loop and add `dropDistance * 2` to score and energy. -/
def hardDrop (st : GameState) (e : Rand) : GameState :=
  match st.currentPiece with
  | none => st
  | some _ =>
    let r := hardDropLoop (hardDropFuel st) st e 0
    { r.1 with score := r.1.score + r.2 * 2, energy := r.1.energy + r.2 * 2 }

/-- Source `resetGame()`: clear the board and progression state, drop the active
piece.  (`gameStarted` is managed by `startGame`, and the treasure-code DOM text
is only hidden, not erased, so both keep their values.) -/
def resetGame (st : GameState) : GameState :=
  { st with grid := resetGrid, score := 0, level := 1, energy := 0,
            treasureUnlocked := false, dropInterval := 1000, currentPiece := none }

/-- The engine commands a session can issue between resets, with their random
draws made explicit. -/
inductive Cmd where
  | move (dx dy : Int) (e : Rand)
  | rot
  | drop (e : Rand)
  | lock (e : Rand)

/-- Apply one command to the state. -/
def applyCmd (c : Cmd) (st : GameState) : GameState :=
  match c with
  | .move dx dy e => (movePiece dx dy st e).1
  | .rot => rotatePiece st
  | .drop e => hardDrop st e
  | .lock e => lockPiece st e

/-- Apply a command sequence left to right. -/
def applyCmds (cs : List Cmd) (st : GameState) : GameState :=
  cs.foldl (fun s c => applyCmd c s) st

/-- Spec-side restatement of the collision condition, quantifier form: some
occupied cell of the shape placed at (x,y) lies outside [0,WIDTH) horizontally,
at or past row HEIGHT vertically, or on a row ≥ 0 whose board cell is already
non-empty. -/
def collisionSpec (g : Grid) (x y : Int) (shape : Shape) : Prop :=
  ∃ row col, row < shape.length ∧ col < (shape.getD row []).length ∧
    shapeCell shape row col ≠ 0 ∧
    (x + (col : Int) < 0 ∨ (GRID_WIDTH : Int) ≤ x + (col : Int) ∨
     (GRID_HEIGHT : Int) ≤ y + (row : Int) ∨
     (0 ≤ y + (row : Int) ∧ gridCellFilled g (y + (row : Int)) (x + (col : Int)) = true))

/-- Spec-side scoring table basePoints = {1:100, 2:300, 3:500, 4:800}. -/
def basePointsSpec : Nat → Nat
  | 1 => 100
  | 2 => 300
  | 3 => 500
  | 4 => 800
  | _ => 0

/-! ### Concrete states for demonstrations -/

/-- A fixed random source: always pick the I piece and the character draw 0. -/
def randI : Rand := { nextShape := ShapeKey.I, codeRand := fun _ => 0 }

/-- The piece `spawnPiece` builds for a given key. -/
def freshPiece (k : ShapeKey) : Piece :=
  { shape := SHAPES k, color := COLORS k, x := spawnX, y := 0 }

/-- A running session on an empty board with a freshly spawned piece of the
given key. -/
def emptyBoardWith (k : ShapeKey) : GameState :=
  { grid := resetGrid, currentPiece := some (freshPiece k), score := 0, level := 1,
    energy := 0, dropInterval := 1000, treasureUnlocked := false, treasureCode := none,
    gameStarted := true }

/-- A running session with no active piece and some accumulated score. -/
def noPieceState : GameState :=
  { grid := resetGrid, currentPiece := none, score := 3, level := 1, energy := 3,
    dropInterval := 1000, treasureUnlocked := false, treasureCode := none,
    gameStarted := true }

/-- A board whose only occupied cell is (row 0, column 7): a column stacked to
the very top, as happens right before a top-out. -/
def collideTopGrid : Grid := setCell resetGrid 0 7 (some (COLORS ShapeKey.L))

/-- Session state just before the fatal spawn. -/
def preGameOverState : GameState :=
  { grid := collideTopGrid, currentPiece := none, score := 120, level := 1, energy := 120,
    dropInterval := 1000, treasureUnlocked := false, treasureCode := none,
    gameStarted := true }

/-- The state right after the top-out spawn: the I piece at (4,0) overlaps the
occupied cell (0,7), so `spawnPiece` has called `gameOver`. -/
def gameOverState : GameState := spawnPiece preGameOverState randI

/-- A bottom row that is full except for columns 4 and 5 (the well an O piece
is about to fill). -/
def stackRow : BoardRow :=
  [some "#5D878F", some "#DB4545", some "#D2BA4C", some "#964325",
   none, none,
   some "#1FB8CD", some "#FFC185", some "#B4413C", some "#5D878F"]

/-- A board whose rows 18 and 19 are full except for columns 4 and 5. -/
def twoRowPreGrid : Grid := List.replicate 18 emptyRow ++ [stackRow, stackRow]

/-- The grid right after an O piece dropped at (4,18) locks, completing rows 18
and 19 simultaneously — the board `clearLines` is then invoked on. -/
def lockedTwoFullGrid : Grid :=
  lockGrid twoRowPreGrid
    { shape := SHAPES ShapeKey.O, color := COLORS ShapeKey.O, x := 4, y := 18 }

/-- A board whose bottom row is completely full. -/
def oneFullRowGrid : Grid :=
  List.replicate 19 emptyRow ++ [List.replicate GRID_WIDTH (some (COLORS ShapeKey.O))]

/-- A session about to clear one line at 950 points. -/
def clearDemoState : GameState :=
  { grid := oneFullRowGrid, currentPiece := none, score := 950, level := 1, energy := 950,
    dropInterval := 1000, treasureUnlocked := false, treasureCode := none,
    gameStarted := true }

/-- A session about to clear one line with energy 4900, crossing the 5000
threshold on the clearing event. -/
def treasureDemoState : GameState :=
  { grid := oneFullRowGrid, currentPiece := none, score := 0, level := 1, energy := 4900,
    dropInterval := 1000, treasureUnlocked := false, treasureCode := none,
    gameStarted := true }

/-! ### List helper lemmas -/

theorem countP_eraseIdx_add_one {α : Type} (p : α → Bool) :
    ∀ (l : List α) (i : Nat) (a : α), l[i]? = some a → p a = true →
      (l.eraseIdx i).countP p + 1 = l.countP p := by
  intro l
  induction l with
  | nil => intro i a h _; simp at h
  | cons b t ih =>
    intro i a h hp
    cases i with
    | zero =>
      simp at h
      subst h
      simp [List.countP_cons, hp]
    | succ j =>
      simp at h
      have h2 := ih j a h hp
      by_cases hb : p b = true <;>
        simp [List.countP_cons, hb] <;> omega

theorem filter_eraseIdx_of_neg {α : Type} (p : α → Bool) :
    ∀ (l : List α) (i : Nat) (a : α), l[i]? = some a → p a = false →
      (l.eraseIdx i).filter p = l.filter p := by
  intro l
  induction l with
  | nil => intro i a h _; simp at h
  | cons b t ih =>
    intro i a h hp
    cases i with
    | zero =>
      simp at h
      subst h
      simp [List.filter_cons, hp]
    | succ j =>
      simp at h
      simp [List.filter_cons, ih j a h hp]

theorem getD_eraseIdx_of_le {α : Type} (l : List α) (n i : Nat) (h : n ≤ i) (d : α) :
    (l.eraseIdx n).getD i d = l.getD (i + 1) d := by
  simp [List.getD_eq_getElem?_getD, List.getElem?_eraseIdx_of_ge l n i h]

/-! ### Line-clear scan characterization -/

theorem isFullRow_emptyRow : isFullRow emptyRow = false := by decide

theorem rowFullAt_eq_getD (g : Grid) (i : Nat) :
    rowFullAt g i = isFullRow (g.getD i emptyRow) := by
  unfold rowFullAt
  cases h : g[i]? with
  | none => simp [List.getD_eq_getElem?_getD, h, isFullRow_emptyRow]
  | some r => simp [List.getD_eq_getElem?_getD, h]

theorem countP_removeRowInsertTop (g : Grid) (row : Nat) (r : BoardRow)
    (h : g[row]? = some r) (hfull : isFullRow r = true) :
    (removeRowInsertTop g row).countP isFullRow + 1 = g.countP isFullRow := by
  unfold removeRowInsertTop
  rw [List.countP_cons]
  simp only [isFullRow_emptyRow]
  simpa using countP_eraseIdx_add_one isFullRow g row r h hfull

/-- One step of the scan on every grid: after the full row at the scanned index
is removed and an empty row enters at the top, the rows strictly below the
scanned index are untouched and the row now at the scanned index is the row
that was one above. -/
theorem getD_removeRowInsertTop (g : Grid) (row i : Nat) (hi : row < i) :
    (removeRowInsertTop g row).getD i emptyRow = g.getD i emptyRow := by
  unfold removeRowInsertTop
  obtain ⟨j, rfl⟩ : ∃ j, i = j + 1 := ⟨i - 1, by omega⟩
  rw [List.getD_cons_succ, getD_eraseIdx_of_le _ _ _ (by omega)]

/-- The scan, fully characterized: provided every row strictly below the start
index is not full, it removes exactly the full rows, pushes that many fresh
empty rows in at the top, and reports their number.  Any fuel above
`countP isFullRow g + row` gives this same result, so the fuel picked in
`clearGrid` is never exhausted. -/
theorem clearLoopF_eq :
    ∀ (fuel : Nat) (g : Grid) (row : Nat),
      g.countP isFullRow + row < fuel →
      (∀ i, row < i → isFullRow (g.getD i emptyRow) = false) →
      clearLoopF fuel g row =
        (List.replicate (g.countP isFullRow) emptyRow ++
           g.filter (fun r => !(isFullRow r)),
         g.countP isFullRow) := by
  intro fuel
  induction fuel with
  | zero => intro g row h _; omega
  | succ fuel ih =>
    intro g row hfuel habove
    by_cases hfull : rowFullAt g row = true
    · obtain ⟨r, hr, hfr⟩ : ∃ r, g[row]? = some r ∧ isFullRow r = true := by
        unfold rowFullAt at hfull
        cases h : g[row]? with
        | none => rw [h] at hfull; simp at hfull
        | some r0 => rw [h] at hfull; exact ⟨r0, rfl, hfull⟩
      have hc := countP_removeRowInsertTop g row r hr hfr
      have hrec := ih (removeRowInsertTop g row) row (by omega)
        (fun i hi => by rw [getD_removeRowInsertTop g row i hi]; exact habove i hi)
      have hfil : (removeRowInsertTop g row).filter (fun r => !(isFullRow r)) =
          emptyRow :: g.filter (fun r => !(isFullRow r)) := by
        unfold removeRowInsertTop
        rw [List.filter_cons]
        simp only [isFullRow_emptyRow, Bool.not_false, if_pos]
        rw [filter_eraseIdx_of_neg _ g row r hr (by simp [hfr])]
      have hrep : ∀ (l : List BoardRow) (k : Nat),
          List.replicate k emptyRow ++ emptyRow :: l =
            List.replicate (k + 1) emptyRow ++ l := by
        intro l k
        rw [List.replicate_succ']
        simp
      rw [clearLoopF, if_pos hfull]
      simp only [hrec, hfil]
      rw [hrep, hc]
    · have hfalse : rowFullAt g row = false := by
        cases h : rowFullAt g row
        · rfl
        · exact absurd h hfull
      cases row with
      | zero =>
        rw [clearLoopF, if_neg hfull, if_pos rfl]
        have hall : ∀ i : Nat, isFullRow (g.getD i emptyRow) = false := by
          intro i
          cases i with
          | zero => rw [← rowFullAt_eq_getD]; exact hfalse
          | succ j => exact habove (j + 1) (by omega)
        have hmem : ∀ a ∈ g, isFullRow a = false := by
          intro a ha
          obtain ⟨n, hn⟩ := List.mem_iff_getElem?.mp ha
          have h2 := hall n
          rw [List.getD_eq_getElem?_getD, hn] at h2
          simpa using h2
        have hcount : g.countP isFullRow = 0 :=
          List.countP_eq_zero.mpr (by intro a ha; simp [hmem a ha])
        have hfilter : g.filter (fun r => !(isFullRow r)) = g :=
          List.filter_eq_self.mpr (by intro a ha; simp [hmem a ha])
        rw [hcount, hfilter]
        simp
      | succ r1 =>
        rw [clearLoopF, if_neg hfull, if_neg (by omega : ¬(r1 + 1 = 0))]
        have habove2 : ∀ i, r1 < i → isFullRow (g.getD i emptyRow) = false := by
          intro i hi
          by_cases hieq : i = r1 + 1
          · subst hieq; rw [← rowFullAt_eq_getD]; exact hfalse
          · exact habove i (by omega)
        simpa using ih g r1 (by omega) habove2

/-- The scan, specialized to the grids the engine maintains (at most
GRID_HEIGHT rows, hence nothing below the scan start). -/
theorem clearGrid_char (g : Grid) (hlen : g.length ≤ GRID_HEIGHT) :
    clearGrid g =
      (List.replicate (g.countP isFullRow) emptyRow ++
         g.filter (fun r => !(isFullRow r)),
       g.countP isFullRow) := by
  unfold clearGrid
  have h20 : GRID_HEIGHT = 20 := rfl
  refine clearLoopF_eq _ g _ (by omega) ?_
  intro i hi
  have hle : g.length ≤ i := by omega
  rw [List.getD_eq_getElem?_getD, List.getElem?_eq_none hle]
  simpa using isFullRow_emptyRow

/-! ### Collision check, quantifier form -/

theorem checkCollision_iff (g : Grid) (x y : Int) (shape : Shape) :
    checkCollision g x y shape = true ↔ collisionSpec g x y shape := by
  unfold checkCollision collisionSpec
  simp only [List.any_eq_true, List.mem_range, Bool.and_eq_true, Bool.or_eq_true,
    decide_eq_true_eq, bne_iff_ne, ne_eq]
  constructor
  · rintro ⟨row, hrow, col, hcol, hocc, hcond⟩
    exact ⟨row, col, hrow, hcol, hocc, by tauto⟩
  · rintro ⟨row, col, hrow, hcol, hocc, hcond⟩
    exact ⟨row, hrow, col, hcol, hocc, by tauto⟩

/-! ### Score and energy accounting -/

theorem unlockTreasure_score (st : GameState) (e : Rand) :
    (unlockTreasure st e).score = st.score ∧ (unlockTreasure st e).energy = st.energy :=
  ⟨rfl, rfl⟩

theorem clearLines_adds (st : GameState) (e : Rand) :
    ∃ pts : Nat,
      (clearLines st e).score = st.score + pts ∧
      (clearLines st e).energy = st.energy + pts := by
  unfold clearLines unlockTreasure
  simp only []
  split
  · split
    · exact ⟨_, rfl, rfl⟩
    · exact ⟨_, rfl, rfl⟩
  · exact ⟨0, rfl, rfl⟩

theorem spawnPiece_fields (st : GameState) (e : Rand) :
    (spawnPiece st e).score = st.score ∧ (spawnPiece st e).energy = st.energy ∧
    (spawnPiece st e).level = st.level ∧
    (spawnPiece st e).treasureUnlocked = st.treasureUnlocked ∧
    (spawnPiece st e).treasureCode = st.treasureCode := by
  unfold spawnPiece gameOver
  simp only []
  split <;> exact ⟨rfl, rfl, rfl, rfl, rfl⟩

theorem clearSpawn_adds (st0 : GameState) (e : Rand) :
    ∃ pts : Nat,
      (spawnPiece (clearLines st0 e) e).score = st0.score + pts ∧
      (spawnPiece (clearLines st0 e) e).energy = st0.energy + pts := by
  obtain ⟨pts, h1, h2⟩ := clearLines_adds st0 e
  have hs := spawnPiece_fields (clearLines st0 e) e
  exact ⟨pts, by rw [hs.1, h1], by rw [hs.2.1, h2]⟩

theorem lockPiece_adds (st : GameState) (e : Rand) :
    ∃ pts : Nat,
      (lockPiece st e).score = st.score + pts ∧
      (lockPiece st e).energy = st.energy + pts := by
  unfold lockPiece
  cases hp : st.currentPiece with
  | none => exact ⟨0, rfl, rfl⟩
  | some p =>
    simp only []
    exact clearSpawn_adds _ e

theorem movePiece_adds (dx dy : Int) (st : GameState) (e : Rand) :
    ∃ pts : Nat,
      (movePiece dx dy st e).1.score = st.score + pts ∧
      (movePiece dx dy st e).1.energy = st.energy + pts := by
  unfold movePiece
  cases hp : st.currentPiece with
  | none => exact ⟨0, rfl, rfl⟩
  | some p =>
    simp only []
    split
    · split
      · exact ⟨1, rfl, rfl⟩
      · exact ⟨0, rfl, rfl⟩
    · split
      · exact lockPiece_adds st e
      · exact ⟨0, rfl, rfl⟩

theorem rotatePiece_fields (st : GameState) :
    (rotatePiece st).score = st.score ∧ (rotatePiece st).energy = st.energy := by
  unfold rotatePiece
  cases hp : st.currentPiece with
  | none => exact ⟨rfl, rfl⟩
  | some p =>
    cases hc : checkCollision st.grid p.x p.y (rotateShape p.shape) with
    | false => simp [hc]
    | true => simp [hc]

theorem hardDropLoop_adds :
    ∀ (fuel : Nat) (st : GameState) (e : Rand) (d : Nat),
      ∃ pts : Nat,
        (hardDropLoop fuel st e d).1.score = st.score + pts ∧
        (hardDropLoop fuel st e d).1.energy = st.energy + pts := by
  intro fuel
  induction fuel with
  | zero => intro st e d; exact ⟨0, rfl, rfl⟩
  | succ fuel ih =>
    intro st e d
    rw [hardDropLoop]
    split
    · obtain ⟨p1, h1, h2⟩ := movePiece_adds 0 1 st e
      obtain ⟨p2, h3, h4⟩ := ih (movePiece 0 1 st e).1 e (d + 1)
      exact ⟨p1 + p2, by rw [h3, h1]; omega, by rw [h4, h2]; omega⟩
    · exact movePiece_adds 0 1 st e

theorem hardDrop_adds (st : GameState) (e : Rand) :
    ∃ pts : Nat,
      (hardDrop st e).score = st.score + pts ∧
      (hardDrop st e).energy = st.energy + pts := by
  unfold hardDrop
  cases hp : st.currentPiece with
  | none => exact ⟨0, rfl, rfl⟩
  | some p =>
    simp only []
    obtain ⟨pts, h1, h2⟩ := hardDropLoop_adds (hardDropFuel st) st e 0
    refine ⟨pts + (hardDropLoop (hardDropFuel st) st e 0).2 * 2, ?_, ?_⟩
    · show (hardDropLoop (hardDropFuel st) st e 0).1.score +
        (hardDropLoop (hardDropFuel st) st e 0).2 * 2 = _
      omega
    · show (hardDropLoop (hardDropFuel st) st e 0).1.energy +
        (hardDropLoop (hardDropFuel st) st e 0).2 * 2 = _
      omega

theorem applyCmd_adds (c : Cmd) (st : GameState) :
    ∃ pts : Nat,
      (applyCmd c st).score = st.score + pts ∧
      (applyCmd c st).energy = st.energy + pts := by
  cases c with
  | move dx dy e => exact movePiece_adds dx dy st e
  | rot =>
    refine ⟨0, ?_, ?_⟩
    · show (rotatePiece st).score = st.score + 0
      have h := rotatePiece_fields st
      omega
    · show (rotatePiece st).energy = st.energy + 0
      have h := rotatePiece_fields st
      omega
  | drop e => exact hardDrop_adds st e
  | lock e => exact lockPiece_adds st e

theorem applyCmds_adds :
    ∀ (cs : List Cmd) (st : GameState),
      ∃ pts : Nat,
        (applyCmds cs st).score = st.score + pts ∧
        (applyCmds cs st).energy = st.energy + pts := by
  intro cs
  induction cs with
  | nil => intro st; exact ⟨0, rfl, rfl⟩
  | cons c cs ih =>
    intro st
    obtain ⟨p1, h1, h2⟩ := applyCmd_adds c st
    obtain ⟨p2, h3, h4⟩ := ih (applyCmd c st)
    refine ⟨p1 + p2, ?_, ?_⟩
    · show (applyCmds cs (applyCmd c st)).score = _
      omega
    · show (applyCmds cs (applyCmd c st)).energy = _
      omega

/-! ### movePiece case analysis -/

theorem movePiece_none (dx dy : Int) (st : GameState) (e : Rand)
    (hp : st.currentPiece = none) :
    movePiece dx dy st e = (st, false) := by
  unfold movePiece
  rw [hp]

theorem movePiece_not_collide (dx dy : Int) (st : GameState) (e : Rand) (p : Piece)
    (hp : st.currentPiece = some p)
    (hc : checkCollision st.grid (p.x + dx) (p.y + dy) p.shape = false) :
    movePiece dx dy st e =
      ({ st with
          currentPiece := some { p with x := p.x + dx, y := p.y + dy }
          score := st.score + (if 0 < dy then 1 else 0)
          energy := st.energy + (if 0 < dy then 1 else 0) }, true) := by
  unfold movePiece
  rw [hp]
  by_cases hdy : 0 < dy
  · simp [hc, hdy]
  · simp [hc, hdy]

theorem movePiece_collide_down (dx dy : Int) (st : GameState) (e : Rand) (p : Piece)
    (hp : st.currentPiece = some p)
    (hc : checkCollision st.grid (p.x + dx) (p.y + dy) p.shape = true)
    (hdy : 0 < dy) :
    movePiece dx dy st e = (lockPiece st e, false) := by
  unfold movePiece
  rw [hp]
  simp [hc, hdy]

theorem movePiece_collide_flat (dx dy : Int) (st : GameState) (e : Rand) (p : Piece)
    (hp : st.currentPiece = some p)
    (hc : checkCollision st.grid (p.x + dx) (p.y + dy) p.shape = true)
    (hdy : ¬(0 < dy)) :
    movePiece dx dy st e = (st, false) := by
  unfold movePiece
  rw [hp]
  simp [hc, hdy]

theorem movePiece_down_success (st : GameState) (e : Rand) (p : Piece)
    (hp : st.currentPiece = some p)
    (hc : checkCollision st.grid (p.x + 0) (p.y + 1) p.shape = false) :
    movePiece 0 1 st e =
      ({ st with
          currentPiece := some { p with x := p.x + 0, y := p.y + 1 }
          score := st.score + 1
          energy := st.energy + 1 }, true) := by
  rw [movePiece_not_collide 0 1 st e p hp hc]
  norm_num

/-! ### hardDrop characterization -/

theorem piece_y_zero (p : Piece) : ({ p with y := p.y + ((0 : Nat) : Int) } : Piece) = p := by
  cases p with
  | mk s c x y => simp

theorem gamestate_self (st : GameState) (p : Piece) (hp : st.currentPiece = some p) :
    ({ st with currentPiece := some p, score := st.score + 0, energy := st.energy + 0 } :
        GameState) = st := by
  cases st with
  | mk g cp sc lv en di tu tc gs => simp [← hp]

theorem hardDropLoop_char (e : Rand) :
    ∀ (d : Nat) (st : GameState) (p : Piece) (acc fuel : Nat),
      st.currentPiece = some p →
      (∀ j : Nat, j < d → checkCollision st.grid p.x (p.y + (j : Int) + 1) p.shape = false) →
      checkCollision st.grid p.x (p.y + (d : Int) + 1) p.shape = true →
      d < fuel →
      hardDropLoop fuel st e acc =
        (lockPiece { st with currentPiece := some { p with y := p.y + (d : Int) },
                             score := st.score + d, energy := st.energy + d } e,
         acc + d) := by
  intro d
  induction d with
  | zero =>
    intro st p acc fuel hp hsteps hstop hfuel
    obtain ⟨fuel1, rfl⟩ : ∃ f1, fuel = f1 + 1 := ⟨fuel - 1, by omega⟩
    have hc0 : checkCollision st.grid (p.x + 0) (p.y + 1) p.shape = true := by
      have harg : p.y + ((0 : Nat) : Int) + 1 = p.y + 1 := by push_cast; ring
      rw [harg] at hstop
      rw [add_zero]
      exact hstop
    rw [hardDropLoop]
    rw [movePiece_collide_down 0 1 st e p hp hc0 (by norm_num)]
    show (lockPiece st e, acc) =
      (lockPiece { st with currentPiece := some { p with y := p.y + ((0 : Nat) : Int) },
                           score := st.score + 0, energy := st.energy + 0 } e,
       acc + 0)
    rw [piece_y_zero, gamestate_self st p hp]
    rfl
  | succ d ih =>
    intro st p acc fuel hp hsteps hstop hfuel
    obtain ⟨fuel1, rfl⟩ : ∃ f1, fuel = f1 + 1 := ⟨fuel - 1, by omega⟩
    have hc0 : checkCollision st.grid (p.x + 0) (p.y + 1) p.shape = false := by
      have h0 := hsteps 0 (by omega)
      have harg : p.y + ((0 : Nat) : Int) + 1 = p.y + 1 := by push_cast; ring
      rw [harg] at h0
      rw [add_zero]
      exact h0
    rw [hardDropLoop]
    rw [movePiece_down_success st e p hp hc0]
    show hardDropLoop fuel1
        { st with currentPiece := some { p with x := p.x + 0, y := p.y + 1 },
                  score := st.score + 1, energy := st.energy + 1 } e (acc + 1) = _
    have hsteps1 : ∀ j : Nat, j < d →
        checkCollision st.grid (p.x + 0) ((p.y + 1) + (j : Int) + 1) p.shape = false := by
      intro j hj
      have h2 := hsteps (j + 1) (by omega)
      have harg : p.y + ((j + 1 : Nat) : Int) + 1 = (p.y + 1) + (j : Int) + 1 := by
        push_cast; ring
      rw [harg] at h2
      rw [add_zero]
      exact h2
    have hstop1 :
        checkCollision st.grid (p.x + 0) ((p.y + 1) + (d : Int) + 1) p.shape = true := by
      have harg : p.y + ((d + 1 : Nat) : Int) + 1 = (p.y + 1) + (d : Int) + 1 := by
        push_cast; ring
      rw [harg] at hstop
      rw [add_zero]
      exact hstop
    rw [ih { st with currentPiece := some { p with x := p.x + 0, y := p.y + 1 },
                     score := st.score + 1, energy := st.energy + 1 }
        { p with x := p.x + 0, y := p.y + 1 } (acc + 1) fuel1 rfl hsteps1 hstop1 (by omega)]
    simp only [Prod.mk.injEq]
    constructor
    · congr 1
      cases st with
      | mk g cp sc lv en di tu tc gs =>
        cases p with
        | mk ps pc px py =>
          simp only [GameState.mk.injEq, Piece.mk.injEq, Option.some.injEq]
          and_intros <;> first
            | trivial
            | omega
    · omega

/-- The fuel chosen in `hardDrop` strictly exceeds the number of successful
downward steps the JS loop makes, so the fuelled loop agrees with the unbounded
one. -/
theorem drop_bound (st : GameState) (p : Piece) (d : Nat)
    (hp : st.currentPiece = some p)
    (hsteps : ∀ j : Nat, j < d → checkCollision st.grid p.x (p.y + (j : Int) + 1) p.shape = false)
    (hstop : checkCollision st.grid p.x (p.y + (d : Int) + 1) p.shape = true) :
    d < hardDropFuel st := by
  have hfuel_eq : hardDropFuel st =
      ((GRID_HEIGHT : Int) + p.shape.length - p.y).toNat + 1 := by
    unfold hardDropFuel
    rw [hp]
  rw [hfuel_eq]
  cases d with
  | zero => omega
  | succ d1 =>
    obtain ⟨row, col, hrow, hcol, hocc, hviol⟩ :=
      (checkCollision_iff st.grid p.x (p.y + ((d1 + 1 : Nat) : Int) + 1) p.shape).mp hstop
    have hnc := hsteps d1 (by omega)
    have hspec : ¬ collisionSpec st.grid p.x (p.y + (d1 : Int) + 1) p.shape := by
      intro hcon
      have h2 := (checkCollision_iff st.grid p.x (p.y + (d1 : Int) + 1) p.shape).mpr hcon
      rw [hnc] at h2
      exact Bool.false_ne_true h2
    unfold collisionSpec at hspec
    push_neg at hspec
    obtain ⟨h1, h2, h3, h4⟩ := hspec row col hrow hcol hocc
    omega

theorem hardDrop_char (st : GameState) (e : Rand) (p : Piece) (d : Nat)
    (hp : st.currentPiece = some p)
    (hsteps : ∀ j : Nat, j < d → checkCollision st.grid p.x (p.y + (j : Int) + 1) p.shape = false)
    (hstop : checkCollision st.grid p.x (p.y + (d : Int) + 1) p.shape = true) :
    hardDrop st e =
      (let stL := lockPiece { st with currentPiece := some { p with y := p.y + (d : Int) },
                                      score := st.score + d, energy := st.energy + d } e
       { stL with score := stL.score + d * 2, energy := stL.energy + d * 2 }) := by
  unfold hardDrop
  rw [hp]
  rw [hardDropLoop_char e d st p 0 (hardDropFuel st) hp hsteps hstop
    (drop_bound st p d hp hsteps hstop)]
  simp only [Nat.zero_add]

/-! ### Claim theorems -/

/-- Claim C1: for every board, shape matrix and integer position (x,y), the
collision check returns true iff some occupied cell of the shape placed at
(x,y) lies outside [0,WIDTH) horizontally, at or past row HEIGHT vertically,
or on a row ≥ 0 whose board cell is already non-empty; occupied cells on
negative rows are never compared against board content. -/
theorem collision_check_correct (g : Grid) (x y : Int) (shape : Shape) :
    checkCollision g x y shape = true ↔ collisionSpec g x y shape :=
  checkCollision_iff g x y shape

/-- Claim C2 is violated by the code: a spawn whose starting cells collide does
set the game-over status (gameStarted = false), but the next movePiece call is
not rejected — it moves the piece.  The engine functions carry no game-over
guard; only the keyboard/touch/tick adapters check gameStarted, while the
on-screen button handlers call movePiece/rotatePiece/hardDrop directly. -/
theorem gameOver_not_terminal_for_commands :
    gameOverState.gameStarted = false ∧
    (movePiece (-1) 0 gameOverState randI).2 = true ∧
    (movePiece (-1) 0 gameOverState randI).1.currentPiece ≠ gameOverState.currentPiece := by
  decide

/-- Claim C3: for an active piece, a colliding candidate with dy > 0 locks the
piece and returns failure; a colliding candidate with dy = 0 returns failure
with the state completely unchanged; a non-colliding candidate is committed,
returning success, with score and energy each gaining 1 exactly when dy > 0. -/
theorem movePiece_case_analysis (dx dy : Int) (st : GameState) (e : Rand) (p : Piece)
    (hp : st.currentPiece = some p) :
    (checkCollision st.grid (p.x + dx) (p.y + dy) p.shape = true → 0 < dy →
        movePiece dx dy st e = (lockPiece st e, false)) ∧
    (checkCollision st.grid (p.x + dx) (p.y + dy) p.shape = true → dy = 0 →
        movePiece dx dy st e = (st, false)) ∧
    (checkCollision st.grid (p.x + dx) (p.y + dy) p.shape = false →
        movePiece dx dy st e =
          ({ st with
              currentPiece := some { p with x := p.x + dx, y := p.y + dy }
              score := st.score + (if 0 < dy then 1 else 0)
              energy := st.energy + (if 0 < dy then 1 else 0) }, true)) := by
  refine ⟨?_, ?_, ?_⟩
  · intro hc hdy
    exact movePiece_collide_down dx dy st e p hp hc hdy
  · intro hc hdy
    exact movePiece_collide_flat dx dy st e p hp hc (by omega)
  · intro hc
    exact movePiece_not_collide dx dy st e p hp hc

theorem movePiece_case_analysis_witness :
    (movePiece 0 1 (emptyBoardWith ShapeKey.I) randI).2 = true ∧
    (movePiece 0 1 (emptyBoardWith ShapeKey.I) randI).1.score = 1 ∧
    (movePiece 0 1 (emptyBoardWith ShapeKey.I) randI).1.energy = 1 := by
  have h := (movePiece_case_analysis 0 1 (emptyBoardWith ShapeKey.I) randI
    (freshPiece ShapeKey.I) rfl).2.2 (by decide)
  rw [h]
  decide

/-- Claim C9: each of the seven catalog shapes returns to a bit-for-bit
identical matrix after four clockwise rotations (new row i = old column i
reversed), both as a pure transformation and through rotatePiece on an
unobstructed board. -/
theorem rotate_four_times_identity (k : ShapeKey) :
    rotateShape (rotateShape (rotateShape (rotateShape (SHAPES k)))) = SHAPES k ∧
    (rotatePiece (rotatePiece (rotatePiece (rotatePiece (emptyBoardWith k))))).currentPiece
      = some (freshPiece k) := by
  cases k <;> exact ⟨by decide, by decide⟩

/-- Claim C10: with no active piece, move, rotate and hardDrop are no-ops that
return failure and leave the whole state unchanged. -/
theorem commands_noop_without_piece (st : GameState) (e : Rand) (dx dy : Int)
    (hp : st.currentPiece = none) :
    movePiece dx dy st e = (st, false) ∧ rotatePiece st = st ∧ hardDrop st e = st := by
  refine ⟨movePiece_none dx dy st e hp, ?_, ?_⟩
  · unfold rotatePiece
    rw [hp]
  · unfold hardDrop
    rw [hp]

theorem commands_noop_without_piece_witness :
    movePiece 1 0 noPieceState randI = (noPieceState, false) ∧
    rotatePiece noPieceState = noPieceState ∧
    hardDrop noPieceState randI = noPieceState :=
  commands_noop_without_piece noPieceState randI 1 0 rfl

theorem basePoints_table (n : Nat) (h1 : 1 ≤ n) (h4 : n ≤ 4) :
    ([0, 100, 300, 500, 800] : List Nat).getD n 0 = basePointsSpec n := by
  interval_cases n <;> rfl

/-- Claim C4: when the scan removes n > 0 rows (1 ≤ n ≤ 4), score and energy
each gain basePoints[n] × level (pre-update level), then level is recomputed
as ⌊score/1000⌋ + 1 and dropInterval as max(100, 1000 − (level−1)×100); with
n = 0 all four quantities are unchanged. -/
theorem clearLines_scoring (st : GameState) (e : Rand) :
    ((clearGrid st.grid).2 = 0 →
        (clearLines st e).score = st.score ∧ (clearLines st e).energy = st.energy ∧
        (clearLines st e).level = st.level ∧
        (clearLines st e).dropInterval = st.dropInterval) ∧
    (1 ≤ (clearGrid st.grid).2 → (clearGrid st.grid).2 ≤ 4 →
        (clearLines st e).score =
          st.score + basePointsSpec (clearGrid st.grid).2 * st.level ∧
        (clearLines st e).energy =
          st.energy + basePointsSpec (clearGrid st.grid).2 * st.level ∧
        (clearLines st e).level = (clearLines st e).score / 1000 + 1 ∧
        (clearLines st e).dropInterval =
          max 100 (1000 - (((clearLines st e).level : Int) - 1) * 100)) := by
  constructor
  · intro h0
    unfold clearLines
    simp only []
    rw [if_neg (by omega : ¬ 0 < (clearGrid st.grid).2)]
    exact ⟨rfl, rfl, rfl, rfl⟩
  · intro h1 h4
    rw [← basePoints_table (clearGrid st.grid).2 h1 h4]
    unfold clearLines unlockTreasure
    simp only []
    rw [if_pos (by omega : 0 < (clearGrid st.grid).2)]
    split
    · exact ⟨rfl, rfl, rfl, rfl⟩
    · exact ⟨rfl, rfl, rfl, rfl⟩

theorem clearLines_scoring_witness :
    (clearGrid clearDemoState.grid).2 = 1 ∧
    (clearLines clearDemoState randI).score = 1050 ∧
    (clearLines clearDemoState randI).level = 2 ∧
    (clearLines clearDemoState randI).dropInterval = 900 := by
  have h := (clearLines_scoring clearDemoState randI).2 (by decide) (by decide)
  refine ⟨by decide, ?_, ?_, ?_⟩
  · rw [h.1]
    decide
  · rw [h.2.2.1, h.1]
    decide
  · rw [h.2.2.2, h.2.2.1, h.1]
    decide

/-- Claim C5 is false on the code: when an O piece locks at (4,18) and
completes rows 18 and 19, the scan finds row 19 full and removes it — and the
row that shifts into index 19 (previously row 18) is itself full, so the
re-examination of index 19 does find a second full row.  The re-check is what
makes the scan clear both lines; it is not a defensive no-op. -/
theorem recheck_finds_second_full_row :
    rowFullAt lockedTwoFullGrid 19 = true ∧
    rowFullAt (removeRowInsertTop lockedTwoFullGrid 19) 19 = true ∧
    (clearGrid lockedTwoFullGrid).2 = 2 := by
  decide

/-- Claim C5 amended: the row that shifts into a cleared index r is the row
previously at r − 1, which can itself be full (exactly when consecutive rows
are full); the re-examination then removes it as well, so the scan removes
every full row, inserts that many fresh empty rows at the top, and reports
their number. -/
theorem clear_scan_removes_all_full_rows (g : Grid) (hlen : g.length ≤ GRID_HEIGHT) :
    clearGrid g =
      (List.replicate (g.countP isFullRow) emptyRow ++
         g.filter (fun r => !(isFullRow r)),
       g.countP isFullRow) :=
  clearGrid_char g hlen

theorem clear_scan_removes_all_full_rows_witness :
    clearGrid lockedTwoFullGrid =
      (List.replicate (lockedTwoFullGrid.countP isFullRow) emptyRow ++
         lockedTwoFullGrid.filter (fun r => !(isFullRow r)),
       lockedTwoFullGrid.countP isFullRow) ∧
    lockedTwoFullGrid.countP isFullRow = 2 :=
  ⟨clear_scan_removes_all_full_rows lockedTwoFullGrid (by decide), by decide⟩

/-- Claim C7: across any sequence of move, rotate, hardDrop and lock commands
within one session, score and energy are non-decreasing (hence neither can
return to 0 from a positive value), and reset sets both to 0. -/
theorem score_energy_monotone (cs : List Cmd) (st : GameState) :
    st.score ≤ (applyCmds cs st).score ∧
    st.energy ≤ (applyCmds cs st).energy ∧
    ((applyCmds cs st).score = 0 → st.score = 0) ∧
    ((applyCmds cs st).energy = 0 → st.energy = 0) ∧
    (resetGame st).score = 0 ∧ (resetGame st).energy = 0 := by
  obtain ⟨pts, h1, h2⟩ := applyCmds_adds cs st
  exact ⟨by omega, by omega, by omega, by omega, rfl, rfl⟩

theorem score_energy_monotone_witness :
    3 ≤ (applyCmds [Cmd.rot] noPieceState).score ∧
    (resetGame noPieceState).score = 0 :=
  ⟨(score_energy_monotone [Cmd.rot] noPieceState).1,
   (score_energy_monotone [Cmd.rot] noPieceState).2.2.2.2.1⟩

/-- Claim C6: hardDrop is exactly the repetition of move(0,+1) until it fails,
with no collision logic of its own.  With d the number of collision-free
downward steps (the first collision is at y + d + 1), the piece descends d
rows gaining 1 score and 1 energy per step — exactly what each successful
move(0,1) awards — the failing (d+1)-st move is what locks the piece, and
dropDistance × 2 = 2d is then added on top to score and energy. -/
theorem hardDrop_is_iterated_soft_drop (st : GameState) (e : Rand) (p : Piece) (d : Nat)
    (hp : st.currentPiece = some p)
    (hsteps : ∀ j : Nat, j < d →
      checkCollision st.grid p.x (p.y + (j : Int) + 1) p.shape = false)
    (hstop : checkCollision st.grid p.x (p.y + (d : Int) + 1) p.shape = true) :
    (movePiece 0 1
        { st with currentPiece := some { p with y := p.y + (d : Int) },
                  score := st.score + d, energy := st.energy + d } e =
      (lockPiece { st with currentPiece := some { p with y := p.y + (d : Int) },
                           score := st.score + d, energy := st.energy + d } e, false)) ∧
    hardDrop st e =
      (let stL := lockPiece { st with currentPiece := some { p with y := p.y + (d : Int) },
                                      score := st.score + d, energy := st.energy + d } e
       { stL with score := stL.score + d * 2, energy := stL.energy + d * 2 }) := by
  constructor
  · refine movePiece_collide_down 0 1 _ e { p with y := p.y + (d : Int) } rfl ?_ (by norm_num)
    show checkCollision st.grid (p.x + 0) (p.y + (d : Int) + 1) p.shape = true
    rw [add_zero]
    exact hstop
  · exact hardDrop_char st e p d hp hsteps hstop

theorem hardDrop_is_iterated_soft_drop_witness :
    (hardDrop (emptyBoardWith ShapeKey.I) randI).score = 57 ∧
    (hardDrop (emptyBoardWith ShapeKey.I) randI).energy = 57 ∧
    ((hardDrop (emptyBoardWith ShapeKey.I) randI).grid.getD 19 []).getD 4 none
      = some "#1FB8CD" := by
  have h := (hardDrop_is_iterated_soft_drop (emptyBoardWith ShapeKey.I) randI
    (freshPiece ShapeKey.I) 19 rfl
    (by intro j hj; interval_cases j <;> decide) (by decide)).2
  rw [h]
  decide

/-- Claim C8: on a clearing event that brings energy to at least 5000 with the
treasure still locked, the engine unlocks it and exposes an 8-character code
over A–Z0–9; once unlocked, later clearing events neither re-trigger the
unlock nor change the code; below the threshold or without cleared lines the
flag and code are untouched, and energy gained from plain movement never
triggers the check; reset relocks the treasure for the next session. -/
theorem treasure_unlock_spec (st : GameState) (e : Rand) :
    (st.treasureUnlocked = false → 0 < (clearGrid st.grid).2 →
        ENERGY_THRESHOLD ≤ st.energy +
          ([0, 100, 300, 500, 800] : List Nat).getD (clearGrid st.grid).2 0 * st.level →
        (clearLines st e).treasureUnlocked = true ∧
        (clearLines st e).treasureCode = some (generateTreasureCode e.codeRand)) ∧
    (st.treasureUnlocked = true →
        (clearLines st e).treasureUnlocked = true ∧
        (clearLines st e).treasureCode = st.treasureCode) ∧
    (st.treasureUnlocked = false →
        st.energy +
          ([0, 100, 300, 500, 800] : List Nat).getD (clearGrid st.grid).2 0 * st.level <
            ENERGY_THRESHOLD →
        (clearLines st e).treasureUnlocked = false) ∧
    ((clearGrid st.grid).2 = 0 →
        (clearLines st e).treasureUnlocked = st.treasureUnlocked ∧
        (clearLines st e).treasureCode = st.treasureCode) ∧
    ((generateTreasureCode e.codeRand).length = 8 ∧
      ∀ c ∈ (generateTreasureCode e.codeRand).data, c ∈ treasureChars) ∧
    (∀ (dx dy : Int) (p : Piece), st.currentPiece = some p →
        checkCollision st.grid (p.x + dx) (p.y + dy) p.shape = false →
        (movePiece dx dy st e).1.treasureUnlocked = st.treasureUnlocked ∧
        (movePiece dx dy st e).1.treasureCode = st.treasureCode) ∧
    (resetGame st).treasureUnlocked = false := by
  refine ⟨?_, ?_, ?_, ?_, ⟨?_, ?_⟩, ?_, rfl⟩
  · intro hT hn hE
    unfold clearLines
    simp only []
    rw [if_pos hn]
    rw [if_pos (by
      simp only [hT, Bool.not_false, Bool.and_true, decide_eq_true_eq]
      exact hE)]
    exact ⟨rfl, rfl⟩
  · intro hT
    unfold clearLines
    simp only []
    by_cases hn : 0 < (clearGrid st.grid).2
    · rw [if_pos hn]
      rw [if_neg (by
        simp only [hT, Bool.not_true, Bool.and_false]
        exact Bool.false_ne_true)]
      exact ⟨hT, rfl⟩
    · rw [if_neg hn]
      exact ⟨hT, rfl⟩
  · intro hT hE
    unfold clearLines
    simp only []
    by_cases hn : 0 < (clearGrid st.grid).2
    · rw [if_pos hn]
      rw [if_neg (by
        simp only [Bool.and_eq_true, decide_eq_true_eq]
        intro hcon
        omega)]
      exact hT
    · rw [if_neg hn]
      exact hT
  · intro hn
    unfold clearLines
    simp only []
    rw [if_neg (by omega)]
    exact ⟨rfl, rfl⟩
  · simp [generateTreasureCode]
  · intro c hc
    have hc2 : c ∈ (List.range 8).map (fun i => treasureChars.getD (e.codeRand i).val 'A') := hc
    obtain ⟨i, hi, rfl⟩ := List.mem_map.mp hc2
    have hlt : (e.codeRand i).val < treasureChars.length := (e.codeRand i).isLt
    rw [List.getD_eq_getElem?_getD, List.getElem?_eq_getElem hlt]
    exact List.getElem_mem hlt
  · intro dx dy p hp hc
    rw [movePiece_not_collide dx dy st e p hp hc]
    exact ⟨rfl, rfl⟩

theorem treasure_unlock_spec_witness :
    (clearLines treasureDemoState randI).treasureUnlocked = true ∧
    (clearLines treasureDemoState randI).treasureCode = some "AAAAAAAA" := by
  have h := (treasure_unlock_spec treasureDemoState randI).1 rfl (by decide) (by decide)
  refine ⟨h.1, ?_⟩
  rw [h.2]
  decide

end EnergyTetris
